import Mathlib

/-!
Verification of the LCM wrapper (`LCM_wrapper.py`): a shallow embedding of the
item codec (string label ↔ integer code), the transaction writer, the command
builder of `LCM.run`, and the two output parsers (`read_freq`, `read_rule`).

Python values that flow through the duck-typed `identify_type` dispatch are
modelled by the inductive `PyVal` (strings, ints and heterogeneous lists).
Python dicts built by successive assignment are modelled as association lists
where the *last* binding wins (`dlookup`).  Fallible Python code (KeyError,
TypeError, IndexError, ValueError, RuntimeError, AttributeError) is modelled
with `Except String`.  String helpers (`pySplit`, `splitLE`, `splitComma`,
`pyStripParens`, `pyInt`) are structurally recursive models of the Python
`str.split`, `str.replace(c, "")` and `int()` operations used by the source.
The nondeterministically ordered `list(set(...))` vocabulary is modelled by an
explicit `itemlist` parameter constrained by `ValidItemlist`.
-/

/-- Model of the Python values handled by `identify_type`: strings, ints and
(possibly heterogeneous) lists. -/
inductive PyVal : Type where
  | vstr : String → PyVal
  | vint : Int → PyVal
  | vlist : List PyVal → PyVal

/-- Python `isinstance(v, str)`. -/
def isStr : PyVal → Bool
  | .vstr _ => true
  | _ => false

/-- Python `isinstance(v, int)`. -/
def isInt : PyVal → Bool
  | .vint _ => true
  | _ => false

/-- Python `isinstance(v, list)`. -/
def isList : PyVal → Bool
  | .vlist _ => true
  | _ => false

/-- Python `all(isinstance(sub_item, str) for sub_item in item)`; only reached by
`identify_type` when `item` is a list, the default branch is vacuous. -/
def subAllStr : PyVal → Bool
  | .vlist l => l.all isStr
  | _ => true

/-- Python `all(isinstance(sub_item, int) for sub_item in item)`; only reached by
`identify_type` when `item` is a list. -/
def subAllInt : PyVal → Bool
  | .vlist l => l.all isInt
  | _ => true

/-- Function `identify_type` from `LCM_wrapper.py` (lines 6-57): classify a value as
`"str"`, `"int"`, `"list[str]"`, `"list[int]"`, `"list[list[str]]"`,
`"list[list[int]]"` or `"unknown"`.  Note that the branches are tried in
source order, so the empty list classifies as `"list[str]"`. -/
def identify_type : PyVal → String
  | .vstr _ => "str"
  | .vint _ => "int"
  | .vlist l =>
    if l.all isStr then "list[str]"
    else if l.all isInt then "list[int]"
    else if l.all isList && l.all subAllStr then "list[list[str]]"
    else if l.all isList && l.all subAllInt then "list[list[int]]"
    else "unknown"

/-- Inject a Python list of strings into `PyVal`. -/
def pyLS (l : List String) : PyVal := .vlist (l.map .vstr)

/-- Inject a Python list of lists of strings into `PyVal`. -/
def pyLLS (t : List (List String)) : PyVal := .vlist (t.map pyLS)

/-- Lookup in a Python dict represented as its insertion history: the binding
assigned last wins, a missing key gives `none` (a Python `KeyError`). -/
def dlookup {α : Type} : List (String × α) → String → Option α
  | [], _ => none
  | p :: ps, k =>
    match dlookup ps k with
    | some v => some v
    | none => if p.1 = k then some p.2 else none

/-- The loop `for i, x in enumerate(itemlist): item_name2id[x] = i` of
`LCM.transform_transaction` (with `start_from1 = False` the index starts at
`i`; the wrapper always calls it with `i = 0`). -/
def build_name2id : Nat → List String → List (String × Nat)
  | _, [] => []
  | i, x :: rest => (x, i) :: build_name2id (i + 1) rest

/-- The loop `for i, x in enumerate(itemlist): item_id2name[str(i)] = x` of
`LCM.transform_transaction`: the reverse map is keyed by the decimal string
of the code. -/
def build_id2name : Nat → List String → List (String × String)
  | _, [] => []
  | i, x :: rest => (Nat.repr i, x) :: build_id2name (i + 1) rest

/-- Vocabulary `itemlist = list(set(concatenation of all transactions))`: the Python set
enumeration order is unspecified, so the embedding takes the resulting list as
a parameter constrained to be a duplicate-free enumeration of exactly the
labels occurring in the corpus. -/
def ValidItemlist (itemlist : List String) (transaction : List (List String)) : Prop :=
  itemlist.Nodup ∧ (∀ x ∈ itemlist, x ∈ transaction.flatten) ∧
    (∀ x ∈ transaction.flatten, x ∈ itemlist)

/-- A Python `for` loop that applies a fallible `f` to each element, collecting
the results in order and propagating the first raised exception. -/
def mapE {α β : Type} (f : α → Except String β) : List α → Except String (List β)
  | [] => .ok []
  | x :: rest =>
    match f x with
    | .error e => .error e
    | .ok y =>
      match mapE f rest with
      | .error e => .error e
      | .ok ys => .ok (y :: ys)

/-- One `self.item_name2id[x]` lookup wrapped as a `PyVal` transformer (the
loop body of the `"list[str]"` branch of `LCM.transform_items`); the non-string
branch is unreachable under the `identify_type` guard. -/
def encodeOne (d : List (String × Nat)) : PyVal → Except String PyVal
  | .vstr s =>
    match dlookup d s with
    | some c => .ok (.vint (c : Int))
    | none => .error "KeyError"
  | _ => .error "TypeError"

/-- Method `LCM.transform_items` (lines 175-195): encode a label or a list of labels
to integer codes using the forward map `d`; any other input shape raises
`RuntimeError`. -/
def transform_items (d : List (String × Nat)) (items : PyVal) : Except String PyVal :=
  if identify_type items = "list[str]" then
    match items with
    | .vlist l =>
      match mapE (encodeOne d) l with
      | .ok out => .ok (.vlist out)
      | .error e => .error e
    | _ => .error "TypeError"
  else if identify_type items = "str" then
    encodeOne d items
  else
    .error "RuntimeError"

/-- One `self.item_id2name[x]` lookup (the loop body of the `"list[str]"`
branch of `LCM.inverse_transform_items`): the reverse map is keyed by the
decimal string of a code. -/
def decodeOne (d : List (String × String)) : PyVal → Except String PyVal
  | .vstr s =>
    match dlookup d s with
    | some name => .ok (.vstr name)
    | none => .error "KeyError"
  | _ => .error "TypeError"

/-- Method `LCM.inverse_transform_items` (lines 197-216): decode a code-as-string or
a list of codes-as-strings back to labels; any other input shape (in
particular an `int` or a `list[int]`, which is what `transform_items`
produces) raises `TypeError`. -/
def inverse_transform_items (d : List (String × String)) (items : PyVal) :
    Except String PyVal :=
  if identify_type items = "list[str]" then
    match items with
    | .vlist l =>
      match mapE (decodeOne d) l with
      | .ok out => .ok (.vlist out)
      | .error e => .error e
    | _ => .error "TypeError"
  else if identify_type items = "str" then
    decodeOne d items
  else
    .error "TypeError"

/-- Method `LCM.inverse_transform_itemslist` (lines 221-239): decode a list of lists
of codes-as-strings, raising `TypeError` unless the input classifies as
`"list[list[str]]"`. -/
def inverse_transform_itemslist (d : List (String × String)) (v : PyVal) :
    Except String PyVal :=
  if identify_type v = "list[list[str]]" then
    match v with
    | .vlist l =>
      match mapE (inverse_transform_items d) l with
      | .ok out => .ok (.vlist out)
      | .error e => .error e
    | _ => .error "TypeError"
  else
    .error "TypeError"

/-- The innermost loop body of `LCM.transform_transaction`:
`line.append(item_name2id[x])`. -/
def encodeItemE (itemlist : List String) : PyVal → Except String Nat
  | .vstr s =>
    match dlookup (build_name2id 0 itemlist) s with
    | some c => .ok c
    | none => .error "KeyError"
  | _ => .error "TypeError"

/-- The outer loop body of `LCM.transform_transaction`: encode one transaction
item by item. -/
def encodeRowE (itemlist : List String) : PyVal → Except String (List Nat)
  | .vlist items => mapE (encodeItemE itemlist) items
  | _ => .error "TypeError"

/-- Method `LCM.transform_transaction` (lines 131-173) after the vocabulary has been
materialized as `itemlist`: type-check the corpus (a non-`"list[list[str]]"`
shape raises `RuntimeError`, so the empty corpus is rejected because the empty
list classifies as `"list[str]"`), then replace every label by its code via
`item_name2id`. -/
def transform_transaction (itemlist : List String) (v : PyVal) :
    Except String (List (List Nat)) :=
  if identify_type v = "list[list[str]]" then
    match v with
    | .vlist rows => mapE (encodeRowE itemlist) rows
    | _ => .error "TypeError"
  else
    .error "RuntimeError"

/-- The token accumulator of Python `str.split()` with no separator: split on
runs of whitespace and drop empty pieces.  `cur` holds the reversed current
token. -/
def wsTokens (cur : List Char) : List Char → List (List Char)
  | [] => if cur = [] then [] else [cur.reverse]
  | c :: rest =>
    if c.isWhitespace then
      if cur = [] then wsTokens [] rest
      else cur.reverse :: wsTokens [] rest
    else wsTokens (c :: cur) rest

/-- Python `x.split()` (no separator argument). -/
def pySplit (s : String) : List String := (wsTokens [] s.data).map List.asString

/-- The scanner of Python `x.split("<=")`: split at every non-overlapping
occurrence of the two-character separator `<=`, keeping empty pieces. -/
def leTokens (cur : List Char) : List Char → List (List Char)
  | [] => [cur.reverse]
  | '<' :: '=' :: rest => cur.reverse :: leTokens [] rest
  | c :: rest => leTokens (c :: cur) rest

/-- Python `x.split("<=")`. -/
def pySplitLE (s : String) : List String := (leTokens [] s.data).map List.asString

/-- The scanner of Python `x.split(",")`. -/
def commaTokens (cur : List Char) : List Char → List (List Char)
  | [] => [cur.reverse]
  | ',' :: rest => cur.reverse :: commaTokens [] rest
  | c :: rest => commaTokens (c :: cur) rest

/-- Python `x.split(",")`. -/
def pySplitComma (s : String) : List String := (commaTokens [] s.data).map List.asString

/-- Python `x.replace("(", "").replace(")", "")`: deleting every occurrence of
a single character equals filtering it out. -/
def pyStripParens (s : String) : String :=
  List.asString (((s.data.filter (fun c => !(c == '('))).filter (fun c => !(c == ')'))))

/-- Digit value of a character, `none` on a non-digit. -/
def pyDigit (c : Char) : Option Nat :=
  if c.isDigit then some (c.toNat - Char.toNat '0') else none

/-- Accumulate a decimal numeral; `none` as soon as a non-digit appears. -/
def digitsToNat (acc : Nat) : List Char → Option Nat
  | [] => some acc
  | c :: rest =>
    match pyDigit c with
    | some d => digitsToNat (acc * 10 + d) rest
    | none => none

/-- Strip leading and trailing whitespace. -/
def pyStrip (l : List Char) : List Char :=
  ((l.dropWhile Char.isWhitespace).reverse.dropWhile Char.isWhitespace).reverse

/-- Python `int(s)` on the ASCII inputs produced by the engine: optional sign,
then a non-empty run of decimal digits, surrounding whitespace ignored; every
other input raises `ValueError` (`none`). -/
def pyInt (s : String) : Option Int :=
  match pyStrip s.data with
  | [] => none
  | '-' :: rest =>
    if rest = [] then none else (digitsToNat 0 rest).map (fun n => -(n : Int))
  | '+' :: rest =>
    if rest = [] then none else (digitsToNat 0 rest).map (fun n => (n : Int))
  | l => (digitsToNat 0 l).map (fun n => (n : Int))

/-- Python `" ".join(l)`. -/
def joinSpace : List String → String
  | [] => ""
  | [x] => x
  | x :: rest => x ++ " " ++ joinSpace rest

/-- Python `" ".join(list(map(str, x)))`: one transaction rendered as space-separated
decimal codes. -/
def transactionLine (x : List Nat) : String := joinSpace (x.map Nat.repr)

/-- The loop of `LCM.write_transaction` (lines 260-268): with no target every
transaction is written, with a target only the transactions whose code list
contains it, each as its line followed by a newline. -/
def write_transaction_lines (transformed : List (List Nat)) (targetid : Option Nat) :
    List String :=
  match transformed with
  | [] => []
  | x :: rest =>
    match targetid with
    | none => (transactionLine x ++ "\n") :: write_transaction_lines rest none
    | some tid =>
      if tid ∈ x then (transactionLine x ++ "\n") :: write_transaction_lines rest (some tid)
      else write_transaction_lines rest (some tid)

/-- Concatenation of the written lines. -/
def concatLines : List String → String
  | [] => ""
  | l :: rest => l ++ concatLines rest

/-- Method `LCM.write_transaction` (lines 241-269): `open(self.transactionfile, "w")`
truncates, so the resulting file content ignores `prevContent` entirely and is
exactly the concatenation of the selected lines. -/
def write_transaction (prevContent : String) (transformed : List (List Nat))
    (targetid : Option Nat) : String :=
  let _ := prevContent
  concatLines (write_transaction_lines transformed targetid)

/-- The dict literal `itemset_mining_dic` of `LCM.run` (lines 291-292). -/
def itemset_mining_dic : List (String × String) :=
  [("frequent", "F"), ("closed_frequent", "C"), ("maximal_frequent", "M"),
   ("positive-closed", "P")]

/-- The recognized keys of the `option` dict of `LCM.run`; a value, when
present, is carried as the string Python interpolates into the flag. -/
structure RunOpts where
  min_confidence : Option String
  max_confidence : Option String
  min_itemset_size : Option String
  max_itemset_size : Option String
deriving DecidableEq

/-- Merging `option = {**OPTION_DEFAULT, **option}` with
`OPTION_DEFAULT = {"min_confidence": 0.5, "min_itemset_size": 1}` (line
303-304): defaults `str`-rendered as `"0.5"` and `"1"`, explicit values win. -/
def mergeOpts (o : RunOpts) : RunOpts where
  min_confidence := some (o.min_confidence.getD "0.5")
  max_confidence := o.max_confidence
  min_itemset_size := some (o.min_itemset_size.getD "1")
  max_itemset_size := o.max_itemset_size

/-- Observable outcome of a successful `LCM.run` (lines 271-376): the instance
attributes assigned, the mode flag `opt`, the raw `optadd` flag strings, the
transaction file content written, and the final `cmd_list` handed to
`subprocess.call`. -/
structure RunResult where
  rule_for_item : Option String
  target : Option String
  opt : String
  optadd : List String
  fileContent : String
  cmd_list : List String
deriving DecidableEq

/-- Assembly `cmd_list = [self.prog, opt]; cmd_list.extend(" ".join(optadd).split());
cmd_list.extend([self.transactionfile, str(self.min_support),
self.outputfile])` (lines 366-370). -/
def buildCmdList (prog opt : String) (optadd : List String)
    (transactionfile : String) (min_support : Nat) (outputfile : String) :
    List String :=
  [prog, opt] ++ pySplit (joinSpace optadd) ++
    [transactionfile, Nat.repr min_support, outputfile]

/-- Method `LCM.run` (lines 271-376), up to the external process call: merge the
option defaults, reject `rule_for_item` and `target` both present
(`RuntimeError`, raised before any file is written), derive the mode flag from
`itemset_mining_dic` (`<M>fRs` for rule mining, `<M>fs` for targeted frequency
mining, `<M>Rfs` otherwise), build `optadd` (in rule mining `-a min_confidence`
is installed first and the whole list is *replaced* by `-A max_confidence`
when that key is present; then `-l`/`-u`; then `-i <code>` for a non-empty
rule item), write the transaction file, and assemble `cmd_list`.  Encoding an
unknown rule item or target raises `KeyError`; an unknown `itemset_mining`
name raises `KeyError` from the dict lookup inside the branch. -/
def run (prog transactionfile outputfile : String) (itemlist : List String)
    (transaction_transformed : List (List Nat)) (min_support : Nat)
    (itemset_mining : String) (rule_for_item : Option String)
    (target : Option String) (option : RunOpts) : Except String RunResult :=
  let option := mergeOpts option
  if rule_for_item.isSome && target.isSome then
    .error "RuntimeError"
  else
    match rule_for_item, target with
    | some rfi, none =>
      match dlookup itemset_mining_dic itemset_mining with
      | none => .error "KeyError"
      | some m =>
        let opt := m ++ "fRs"
        let optadd :=
          match option.min_confidence with
          | some v => ["-a " ++ v]
          | none => ([] : List String)
        let optadd :=
          match option.max_confidence with
          | some v => ["-A " ++ v]
          | none => optadd
        let optadd := optadd ++
          (match option.min_itemset_size with
           | some v => ["-l " ++ v]
           | none => [])
        let optadd := optadd ++
          (match option.max_itemset_size with
           | some v => ["-u " ++ v]
           | none => [])
        if 0 < rfi.length then
          match dlookup (build_name2id 0 itemlist) rfi with
          | none => .error "KeyError"
          | some targetid =>
            let optadd := optadd ++ ["-i " ++ Nat.repr targetid]
            .ok { rule_for_item := some rfi, target := none, opt := opt,
                  optadd := optadd,
                  fileContent := write_transaction "" transaction_transformed none,
                  cmd_list := buildCmdList prog opt optadd transactionfile
                    min_support outputfile }
        else
          .ok { rule_for_item := some rfi, target := none, opt := opt,
                optadd := optadd,
                fileContent := write_transaction "" transaction_transformed none,
                cmd_list := buildCmdList prog opt optadd transactionfile
                  min_support outputfile }
    | none, some tgt =>
      match dlookup itemset_mining_dic itemset_mining with
      | none => .error "KeyError"
      | some m =>
        let opt := m ++ "fs"
        match dlookup (build_name2id 0 itemlist) tgt with
        | none => .error "KeyError"
        | some targetid =>
          let optadd :=
            (match option.min_itemset_size with
             | some v => ["-l " ++ v]
             | none => ([] : List String)) ++
            (match option.max_itemset_size with
             | some v => ["-u " ++ v]
             | none => [])
          .ok { rule_for_item := none, target := some tgt, opt := opt,
                optadd := optadd,
                fileContent :=
                  write_transaction "" transaction_transformed (some targetid),
                cmd_list := buildCmdList prog opt optadd transactionfile
                  min_support outputfile }
    | none, none =>
      match dlookup itemset_mining_dic itemset_mining with
      | none => .error "KeyError"
      | some m =>
        let opt := m ++ "Rfs"
        let optadd :=
          (match option.min_itemset_size with
           | some v => ["-l " ++ v]
           | none => ([] : List String)) ++
          (match option.max_itemset_size with
           | some v => ["-u " ++ v]
           | none => [])
        .ok { rule_for_item := none, target := none, opt := opt,
              optadd := optadd,
              fileContent := write_transaction "" transaction_transformed none,
              cmd_list := buildCmdList prog opt optadd transactionfile
                min_support outputfile }
    | some _, some _ => .error "RuntimeError"

/-- Result dict of `LCM.read_freq`: `{"frequency": freq, "items": items}`,
each decoded item list kept as the `PyVal` returned by
`inverse_transform_items`. -/
structure FreqOut where
  frequency : List Int
  items : List PyVal

/-- The loop body of `LCM.read_freq` (lines 404-410) for one line `x`:
`s = x.split()`, decode `s[:-1]` via the reverse map, strip the parentheses of
`s[-1]` (`IndexError` on an empty line) and parse it with `int()`
(`ValueError` on junk). -/
def parse_freq_line (d : List (String × String)) (x : String) :
    Except String (PyVal × Int) :=
  let s := pySplit x
  match inverse_transform_items d (pyLS s.dropLast) with
  | .error e => .error e
  | .ok items_tr =>
    match s.getLast? with
    | none => .error "IndexError"
    | some last =>
      match pyInt (pyStripParens last) with
      | some n => .ok (items_tr, n)
      | none => .error "ValueError"

/-- Method `LCM.read_freq` (lines 394-414) on the already-read output lines. -/
def read_freq (d : List (String × String)) (lines : List String) :
    Except String FreqOut :=
  match mapE (parse_freq_line d) lines with
  | .error e => .error e
  | .ok pairs => .ok { frequency := pairs.map (·.2), items := pairs.map (·.1) }

/-- The per-line data gathered by the loop of `LCM.read_rule` before any
decoding: source codes, parenthesis-stripped support, target code, and the
comma-split confidence field. -/
structure RuleRow where
  item_source : List String
  support : String
  item_target : String
  confidence : List String
deriving DecidableEq

/-- The loop body of `LCM.read_rule` (lines 429-445) for one line `x`:
`s = x.split("<=")` (`s[1]` raises `IndexError` when the separator is absent),
the left half yields the confidence (`s[0].split()[0]`, parens stripped, comma
split) and the target code (`s[0].split()[1]`), the right half yields the
source codes (all tokens but the last) and the parens-stripped support (last
token). -/
def parse_rule_line (x : String) : Except String RuleRow :=
  match pySplitLE x with
  | tgtHalf :: srcHalf :: _ =>
    match pySplit tgtHalf with
    | st0 :: st1 :: _ =>
      let confidence := pySplitComma (pyStripParens st0)
      let ss := pySplit srcHalf
      match ss.getLast? with
      | none => .error "IndexError"
      | some lastTok =>
        .ok { item_source := ss.dropLast, support := pyStripParens lastTok,
              item_target := st1, confidence := confidence }
    | _ => .error "IndexError"
  | _ => .error "IndexError"

/-- Result dict of `LCM.read_rule`: `{"frequency", "confidence",
"source_items", "target_item"}`, the last two still as the `PyVal`s returned
by the decoders. -/
structure RuleOut where
  frequency : List String
  confidence : List String
  source_items : PyVal
  target_item : PyVal

/-- Method `LCM.read_rule` (lines 416-453) on the already-read output lines: parse
every line (aborting on the first malformed one), then decode the collected
source code lists with `inverse_transform_itemslist` and the target codes with
`inverse_transform_items`.  `confidence_list` keeps only the first
comma-separated component (`confidence[0]`; the comma split is never empty, so
the `headD` default is unreachable). -/
def read_rule (d : List (String × String)) (lines : List String) :
    Except String RuleOut :=
  match mapE parse_rule_line lines with
  | .error e => .error e
  | .ok rows =>
    let item_source_list := rows.map (·.item_source)
    let freq_list := rows.map (·.support)
    let item_target_list := rows.map (·.item_target)
    let confidence_list := rows.map (fun r => r.confidence.headD "")
    match inverse_transform_itemslist d (pyLLS item_source_list) with
    | .error e => .error e
    | .ok src =>
      match inverse_transform_items d (pyLS item_target_list) with
      | .error e => .error e
      | .ok tgt =>
        .ok { frequency := freq_list, confidence := confidence_list,
              source_items := src, target_item := tgt }

/-- The value `LCM.read` returns: either the frequency dict or the rule
dict. -/
inductive ReadOut where
  | freq : FreqOut → ReadOut
  | rule : RuleOut → ReadOut

/-- Method `LCM.read` (lines 456-466).  The dispatch attribute `self.rule_for_item`
is assigned nowhere but at the top of `LCM.run` (line 298), so it is modelled
as `Option (Option String)`: `none` when `run` has never been called (the
attribute is missing and the access raises `AttributeError`), `some v` when
the last `run` stored `v` there. -/
def read (rule_for_item_attr : Option (Option String))
    (d : List (String × String)) (lines : List String) :
    Except String ReadOut :=
  match rule_for_item_attr with
  | none => .error "AttributeError"
  | some (some _) =>
    match read_rule d lines with
    | .ok r => .ok (.rule r)
    | .error e => .error e
  | some none =>
    match read_freq d lines with
    | .ok r => .ok (.freq r)
    | .error e => .error e

/-- Specification of the digit list of `Nat.repr`: most-significant first. -/
def natChars (n : Nat) : List Char :=
  if n < 10 then [Nat.digitChar n]
  else natChars (n / 10) ++ [Nat.digitChar (n % 10)]
decreasing_by exact Nat.div_lt_self (by omega) (by omega)

theorem natChars_lt {n : Nat} (h : n < 10) : natChars n = [Nat.digitChar n] := by
  rw [natChars, if_pos h]

theorem natChars_ge {n : Nat} (h : ¬ n < 10) :
    natChars n = natChars (n / 10) ++ [Nat.digitChar (n % 10)] := by
  rw [natChars, if_neg h]

theorem natChars_ne_nil (n : Nat) : natChars n ≠ [] := by
  rw [natChars]
  split <;> simp

theorem digitChar_inj_lt :
    ∀ m < 10, ∀ n < 10, Nat.digitChar m = Nat.digitChar n → m = n := by
  decide

theorem natChars_inj : ∀ m n : Nat, natChars m = natChars n → m = n := by
  intro m
  induction m using Nat.strong_induction_on with
  | _ m ih =>
    intro n h
    by_cases hm : m < 10 <;> by_cases hn : n < 10
    · rw [natChars_lt hm, natChars_lt hn] at h
      exact digitChar_inj_lt m hm n hn (by simpa using h)
    · rw [natChars_lt hm, natChars_ge hn] at h
      have := congrArg List.length h
      simp at this
      exact absurd this (natChars_ne_nil _)
    · rw [natChars_ge hm, natChars_lt hn] at h
      have := congrArg List.length h
      simp at this
      exact absurd this (natChars_ne_nil _)
    · rw [natChars_ge hm, natChars_ge hn] at h
      have hlen : ([Nat.digitChar (m % 10)] : List Char).length =
          ([Nat.digitChar (n % 10)] : List Char).length := by simp
      obtain ⟨h1, h2⟩ := List.append_inj' h hlen
      have hdiv : m / 10 = n / 10 := ih (m / 10) (Nat.div_lt_self (by omega) (by omega)) _ h1
      have hmod : m % 10 = n % 10 := by
        have := digitChar_inj_lt (m % 10) (Nat.mod_lt _ (by omega)) (n % 10)
          (Nat.mod_lt _ (by omega)) (by simpa using h2)
        exact this
      omega

theorem toDigitsCore_eq (fuel n : Nat) (acc : List Char) (h : n < fuel) :
    Nat.toDigitsCore 10 fuel n acc = natChars n ++ acc := by
  induction fuel generalizing n acc with
  | zero => omega
  | succ fuel ih =>
    rw [Nat.toDigitsCore]
    by_cases h10 : n / 10 = 0
    · have hn : n < 10 := by omega
      rw [if_pos h10, natChars_lt hn, Nat.mod_eq_of_lt hn]
      simp
    · have hn : ¬ n < 10 := by omega
      rw [if_neg h10, ih (n / 10) _ (by omega)]
      rw [natChars_ge hn]
      simp

theorem natRepr_eq (n : Nat) : Nat.repr n = (natChars n).asString := by
  rw [Nat.repr, Nat.toDigits, toDigitsCore_eq (n + 1) n [] (by omega)]
  simp

theorem natRepr_inj {m n : Nat} (h : Nat.repr m = Nat.repr n) : m = n := by
  rw [natRepr_eq, natRepr_eq] at h
  exact natChars_inj m n (by
    have := congrArg String.data h
    simpa [List.asString] using this)

theorem dlookup_name2id_not_mem {x : String} :
    ∀ (L : List String) (i : Nat), x ∉ L → dlookup (build_name2id i L) x = none := by
  intro L
  induction L with
  | nil => intro i _; rfl
  | cons y rest ih =>
    intro i h
    have hxy : ¬ (y = x) := fun e => h (by simp [e])
    have hxr : x ∉ rest := fun e => h (List.mem_cons_of_mem _ e)
    simp only [build_name2id, dlookup, ih (i + 1) hxr, if_neg hxy]

theorem dlookup_id2name_eq :
    ∀ (L : List String) (i c : Nat),
      dlookup (build_id2name i L) (Nat.repr c) =
        if i ≤ c then L[c - i]? else none := by
  intro L
  induction L with
  | nil =>
    intro i c
    by_cases h : i ≤ c <;> simp [build_id2name, dlookup, h]
  | cons y rest ih =>
    intro i c
    simp only [build_id2name, dlookup, ih (i + 1) c]
    by_cases h1 : i + 1 ≤ c
    · have h0 : i ≤ c := by omega
      have hsub : c - i = (c - (i + 1)) + 1 := by omega
      rw [if_pos h1, if_pos h0, hsub]
      cases hr : rest[c - (i + 1)]? with
      | some v => simp [hr]
      | none =>
        have hne : ¬ (Nat.repr i = Nat.repr c) := fun e => by
          have := natRepr_inj e; omega
        simp [hr, hne]
    · rw [if_neg h1]
      by_cases h2 : i ≤ c
      · have hic : i = c := by omega
        subst hic
        rw [if_pos h2]
        simp
      · have hne : ¬ (Nat.repr i = Nat.repr c) := fun e => by
          have := natRepr_inj e; omega
        rw [if_neg h2]
        simp [hne]

theorem dlookup_name2id_pos {x : String} :
    ∀ (L : List String) (i c : Nat), dlookup (build_name2id i L) x = some c →
      i ≤ c ∧ L[c - i]? = some x := by
  intro L
  induction L with
  | nil => intro i c h; cases h
  | cons y rest ih =>
    intro i c h
    simp only [build_name2id, dlookup] at h
    cases hr : dlookup (build_name2id (i + 1) rest) x with
    | some v =>
      rw [hr] at h
      cases h
      obtain ⟨h1, h2⟩ := ih (i + 1) c hr
      refine ⟨by omega, ?_⟩
      have hsub : c - i = (c - (i + 1)) + 1 := by omega
      simp [hsub, h2]
    | none =>
      rw [hr] at h
      by_cases hyx : y = x
      · rw [if_pos hyx] at h
        cases h
        subst hyx
        simp
      · rw [if_neg hyx] at h
        cases h

theorem dlookup_name2id_total {x : String} :
    ∀ (L : List String) (i : Nat), x ∈ L →
      ∃ c, dlookup (build_name2id i L) x = some c := by
  intro L
  induction L with
  | nil => intro i h; cases h
  | cons y rest ih =>
    intro i h
    by_cases hr : x ∈ rest
    · obtain ⟨c, hc⟩ := ih (i + 1) hr
      exact ⟨c, by simp only [build_name2id, dlookup, hc]⟩
    · have hyx : y = x := by
        cases List.mem_cons.mp h with
        | inl h0 => exact h0.symm
        | inr h0 => exact absurd h0 hr
      refine ⟨i, ?_⟩
      simp only [build_name2id, dlookup, dlookup_name2id_not_mem rest (i + 1) hr,
        if_pos hyx]

theorem name2id_to_id2name {L : List String} {x : String} {c : Nat}
    (h : dlookup (build_name2id 0 L) x = some c) :
    dlookup (build_id2name 0 L) (Nat.repr c) = some x := by
  obtain ⟨h1, h2⟩ := dlookup_name2id_pos L 0 c h
  rw [dlookup_id2name_eq L 0 c, if_pos (by omega)]
  simpa using h2

theorem name2id_code_inj {L : List String} {x y : String} {cx cy : Nat}
    (hx : dlookup (build_name2id 0 L) x = some cx)
    (hy : dlookup (build_name2id 0 L) y = some cy) (hxy : x ≠ y) : cx ≠ cy := by
  intro e
  obtain ⟨_, h2x⟩ := dlookup_name2id_pos L 0 cx hx
  obtain ⟨_, h2y⟩ := dlookup_name2id_pos L 0 cy hy
  subst e
  rw [h2x] at h2y
  exact hxy (by injection h2y)

theorem mapE_ok_mem {α β : Type} {f : α → Except String β} :
    ∀ {l : List α} {ys : List β}, mapE f l = .ok ys → ∀ y ∈ ys, ∃ x ∈ l, f x = .ok y := by
  intro l
  induction l with
  | nil =>
    intro ys h y hy
    cases h
    cases hy
  | cons a rest ih =>
    intro ys h y hy
    simp only [mapE] at h
    cases ha : f a with
    | error e => rw [ha] at h; cases h
    | ok b =>
      rw [ha] at h
      cases hrest : mapE f rest with
      | error e => rw [hrest] at h; cases h
      | ok bs =>
        rw [hrest] at h
        cases h
        cases List.mem_cons.mp hy with
        | inl h0 => exact ⟨a, by simp, by rw [ha, h0]⟩
        | inr h0 =>
          obtain ⟨x, hx1, hx2⟩ := ih hrest y h0
          exact ⟨x, by simp [hx1], hx2⟩

theorem mapE_error_of_mem {α β : Type} {f : α → Except String β} {x : α} {e : String} :
    ∀ {l : List α}, x ∈ l → f x = .error e → ∃ e2, mapE f l = .error e2 := by
  intro l
  induction l with
  | nil => intro h; cases h
  | cons a rest ih =>
    intro h hx
    cases List.mem_cons.mp h with
    | inl h0 =>
      subst h0
      exact ⟨e, by simp only [mapE, hx]⟩
    | inr h0 =>
      cases ha : f a with
      | error e1 => exact ⟨e1, by simp only [mapE, ha]⟩
      | ok b =>
        obtain ⟨e2, he2⟩ := ih h0 hx
        exact ⟨e2, by simp only [mapE, ha, he2]⟩

theorem all_isStr_map (l : List String) : (l.map PyVal.vstr).all isStr = true := by
  induction l with
  | nil => rfl
  | cons x rest ih => simp [isStr, ih]

theorem identify_type_pyLS (l : List String) : identify_type (pyLS l) = "list[str]" := by
  simp [identify_type, pyLS, all_isStr_map]

theorem isList_pyLS (x : List String) : isList (pyLS x) = true := rfl

theorem subAllStr_pyLS (x : List String) : subAllStr (pyLS x) = true := by
  simp [subAllStr, pyLS, all_isStr_map]

theorem identify_type_pyLLS (r : List String) (rest : List (List String)) :
    identify_type (pyLLS (r :: rest)) = "list[list[str]]" := by
  have h1 : ((r :: rest).map pyLS).all isStr = false := by
    simp [pyLS, isStr]
  have h2 : ((r :: rest).map pyLS).all isInt = false := by
    simp [pyLS, isInt]
  have h3 : ((r :: rest).map pyLS).all isList = true := by
    simp [pyLS, isList]
  have h4 : ((r :: rest).map pyLS).all subAllStr = true := by
    simp [pyLS, subAllStr, isStr]
  have h0 : identify_type (pyLLS (r :: rest)) =
      (if ((r :: rest).map pyLS).all isStr then "list[str]"
       else if ((r :: rest).map pyLS).all isInt then "list[int]"
       else if ((r :: rest).map pyLS).all isList && ((r :: rest).map pyLS).all subAllStr
         then "list[list[str]]"
       else if ((r :: rest).map pyLS).all isList && ((r :: rest).map pyLS).all subAllInt
         then "list[list[int]]"
       else "unknown") := rfl
  rw [h0, h1, h2, h3, h4]
  simp

theorem transform_items_pyLS (d : List (String × Nat)) (T : List String) :
    transform_items d (pyLS T) =
      match mapE (encodeOne d) (T.map PyVal.vstr) with
      | Except.ok out => Except.ok (PyVal.vlist out)
      | Except.error e => Except.error e := by
  have h0 : transform_items d (pyLS T) =
      (if identify_type (pyLS T) = "list[str]" then
        match mapE (encodeOne d) (T.map PyVal.vstr) with
        | Except.ok out => Except.ok (PyVal.vlist out)
        | Except.error e => Except.error e
      else if identify_type (pyLS T) = "str" then encodeOne d (pyLS T)
      else Except.error "RuntimeError") := rfl
  rw [h0, if_pos (identify_type_pyLS T)]

theorem inverse_transform_items_pyLS (d : List (String × String)) (l : List String) :
    inverse_transform_items d (pyLS l) =
      match mapE (decodeOne d) (l.map PyVal.vstr) with
      | Except.ok out => Except.ok (PyVal.vlist out)
      | Except.error e => Except.error e := by
  have h0 : inverse_transform_items d (pyLS l) =
      (if identify_type (pyLS l) = "list[str]" then
        match mapE (decodeOne d) (l.map PyVal.vstr) with
        | Except.ok out => Except.ok (PyVal.vlist out)
        | Except.error e => Except.error e
      else if identify_type (pyLS l) = "str" then decodeOne d (pyLS l)
      else Except.error "TypeError") := rfl
  rw [h0, if_pos (identify_type_pyLS l)]

theorem transform_items_vstr (d : List (String × Nat)) (s : String) :
    transform_items d (.vstr s) = encodeOne d (.vstr s) := rfl

theorem inverse_transform_items_vstr (d : List (String × String)) (s : String) :
    inverse_transform_items d (.vstr s) = decodeOne d (.vstr s) := rfl

theorem encode_decode_chain (L : List String) :
    ∀ T : List String, (∀ x ∈ T, x ∈ L) →
      ∃ cs : List Nat,
        mapE (encodeOne (build_name2id 0 L)) (T.map .vstr) =
          .ok (cs.map (fun c => PyVal.vint (Int.ofNat c))) ∧
        mapE (decodeOne (build_id2name 0 L)) ((cs.map Nat.repr).map .vstr) =
          .ok (T.map .vstr) := by
  intro T
  induction T with
  | nil => intro _; exact ⟨[], rfl, rfl⟩
  | cons x rest ih =>
    intro h
    obtain ⟨c, hc⟩ := dlookup_name2id_total L 0 (h x (by simp))
    obtain ⟨cs, h1, h2⟩ := ih (fun y hy => h y (by simp [hy]))
    refine ⟨c :: cs, ?_, ?_⟩
    · simp only [List.map_cons, mapE, encodeOne, hc, h1]
      rfl
    · simp only [List.map_cons, mapE, decodeOne, name2id_to_id2name hc, h2]

theorem transform_transaction_pyLLS (itemlist : List String) (r : List String)
    (rest : List (List String)) :
    transform_transaction itemlist (pyLLS (r :: rest)) =
      mapE (encodeRowE itemlist) ((r :: rest).map pyLS) := by
  have h0 : transform_transaction itemlist (pyLLS (r :: rest)) =
      (if identify_type (pyLLS (r :: rest)) = "list[list[str]]" then
        mapE (encodeRowE itemlist) ((r :: rest).map pyLS)
      else Except.error "RuntimeError") := rfl
  rw [h0, if_pos (identify_type_pyLLS r rest)]

/-- C1 (counterexample): the round trip asserted by the claim fails as
stated.  With vocabulary `["a"]`, encoding the single label `"a"` yields the
integer code `0` and encoding `["a"]` yields `[0]`, but
`inverse_transform_items` only accepts codes as *strings* (`identify_type` of
an `int` or a `list[int]` falls to the `TypeError` branch), so decoding the
encoding raises `TypeError` instead of returning the label(s). -/
theorem C1_roundtrip_counterexample :
    transform_items (build_name2id 0 ["a"]) (.vstr "a") = .ok (.vint 0) ∧
    inverse_transform_items (build_id2name 0 ["a"]) (.vint 0) =
      .error "TypeError" ∧
    transform_items (build_name2id 0 ["a"]) (pyLS ["a"]) =
      .ok (.vlist [.vint 0]) ∧
    inverse_transform_items (build_id2name 0 ["a"]) (.vlist [.vint 0]) =
      .error "TypeError" ∧
    inverse_transform_items (build_id2name 0 ["a"]) (.vint 0) ≠
      .ok (.vstr "a") ∧
    inverse_transform_items (build_id2name 0 ["a"]) (.vlist [.vint 0]) ≠
      .ok (pyLS ["a"]) :=
  ⟨rfl, rfl, rfl, rfl, fun h => Except.noConfusion h, fun h => Except.noConfusion h⟩

/-- C1 (amended): for every vocabulary `itemlist` and every transaction
`T` (and single label `s`) drawn from it, decoding the *decimal-string
rendering* of the encoding returns the input exactly, order-preserving and
per item; the un-stringified round trip is the `TypeError` of the
counterexample. -/
theorem C1_roundtrip_amended (itemlist T : List String) (s : String)
    (hnd : itemlist.Nodup) (hT : ∀ x ∈ T, x ∈ itemlist) (hs : s ∈ itemlist) :
    (∃ cs : List Nat,
      transform_items (build_name2id 0 itemlist) (pyLS T) =
        .ok (.vlist (cs.map (fun c => PyVal.vint (Int.ofNat c)))) ∧
      inverse_transform_items (build_id2name 0 itemlist)
        (pyLS (cs.map Nat.repr)) = .ok (pyLS T)) ∧
    (∃ c : Nat,
      transform_items (build_name2id 0 itemlist) (.vstr s) =
        .ok (.vint (Int.ofNat c)) ∧
      inverse_transform_items (build_id2name 0 itemlist)
        (.vstr (Nat.repr c)) = .ok (.vstr s)) := by
  constructor
  · obtain ⟨cs, h1, h2⟩ := encode_decode_chain itemlist T hT
    refine ⟨cs, ?_, ?_⟩
    · rw [transform_items_pyLS, h1]
    · rw [inverse_transform_items_pyLS, h2]
      rfl
  · obtain ⟨c, hc⟩ := dlookup_name2id_total itemlist 0 hs
    refine ⟨c, ?_, ?_⟩
    · rw [transform_items_vstr]
      simp only [encodeOne, hc]
      rfl
    · rw [inverse_transform_items_vstr]
      simp only [decodeOne, name2id_to_id2name hc]

/-- Witness for `C1_roundtrip_amended` at the vocabulary `["a", "b"]`, the
transaction `["b", "a", "b"]` and the label `"a"`. -/
theorem C1_roundtrip_amended_witness :
    List.Nodup ["a", "b"] ∧ (∀ x ∈ ["b", "a", "b"], x ∈ ["a", "b"]) ∧
    "a" ∈ ["a", "b"] ∧
    ((∃ cs : List Nat,
      transform_items (build_name2id 0 ["a", "b"]) (pyLS ["b", "a", "b"]) =
        .ok (.vlist (cs.map (fun c => PyVal.vint (Int.ofNat c)))) ∧
      inverse_transform_items (build_id2name 0 ["a", "b"])
        (pyLS (cs.map Nat.repr)) = .ok (pyLS ["b", "a", "b"])) ∧
    (∃ c : Nat,
      transform_items (build_name2id 0 ["a", "b"]) (.vstr "a") =
        .ok (.vint (Int.ofNat c)) ∧
      inverse_transform_items (build_id2name 0 ["a", "b"])
        (.vstr (Nat.repr c)) = .ok (.vstr "a"))) :=
  ⟨by decide, by decide, by decide,
    C1_roundtrip_amended ["a", "b"] ["b", "a", "b"] "a" (by decide) (by decide)
      (by decide)⟩

/-- C2: after building the codec from a corpus whose vocabulary was
materialized as `itemlist`, (1) every label of the corpus is sent by the
forward map to a code that the reverse map (keyed by the decimal string of
the code) sends back to the label; (2) no two distinct labels share a code;
(3) every code appearing in the encoded transactions has an entry in the
reverse map. -/
theorem C2_bijection (transaction : List (List String)) (itemlist : List String)
    (hv : ValidItemlist itemlist transaction) :
    (∀ x ∈ transaction.flatten, ∃ c,
        dlookup (build_name2id 0 itemlist) x = some c ∧
        dlookup (build_id2name 0 itemlist) (Nat.repr c) = some x) ∧
    (∀ x y cx cy, dlookup (build_name2id 0 itemlist) x = some cx →
        dlookup (build_name2id 0 itemlist) y = some cy → x ≠ y → cx ≠ cy) ∧
    (∀ t, transform_transaction itemlist (pyLLS transaction) = .ok t →
        ∀ row ∈ t, ∀ c ∈ row, ∃ lb,
          dlookup (build_id2name 0 itemlist) (Nat.repr c) = some lb) := by
  obtain ⟨hnd, hsub, hsup⟩ := hv
  refine ⟨?_, ?_, ?_⟩
  · intro x hx
    obtain ⟨c, hc⟩ := dlookup_name2id_total itemlist 0 (hsup x hx)
    exact ⟨c, hc, name2id_to_id2name hc⟩
  · intro x y cx cy hx hy hxy
    exact name2id_code_inj hx hy hxy
  · intro t ht row hrow c hc
    cases transaction with
    | nil =>
      rw [show transform_transaction itemlist (pyLLS []) =
        Except.error "RuntimeError" from rfl] at ht
      cases ht
    | cons r rest =>
      rw [transform_transaction_pyLLS] at ht
      obtain ⟨rowv, hrowv, hrowok⟩ := mapE_ok_mem ht row hrow
      obtain ⟨rl, hrl, hre⟩ := List.mem_map.mp hrowv
      rw [← hre] at hrowok
      rw [show encodeRowE itemlist (pyLS rl) =
        mapE (encodeItemE itemlist) (rl.map .vstr) from rfl] at hrowok
      obtain ⟨itv, hitv, hitok⟩ := mapE_ok_mem hrowok c hc
      obtain ⟨s, hsm, hse⟩ := List.mem_map.mp hitv
      rw [← hse] at hitok
      cases hd : dlookup (build_name2id 0 itemlist) s with
      | none =>
        simp only [encodeItemE, hd] at hitok
        exact Except.noConfusion hitok
      | some c2 =>
        simp only [encodeItemE, hd] at hitok
        cases hitok
        exact ⟨s, name2id_to_id2name hd⟩

/-- Witness for `C2_bijection` at the corpus `[["a", "b"], ["b"]]` with
vocabulary `["a", "b"]`. -/
theorem C2_bijection_witness :
    ValidItemlist ["a", "b"] [["a", "b"], ["b"]] ∧
    ((∀ x ∈ [["a", "b"], ["b"]].flatten, ∃ c,
        dlookup (build_name2id 0 ["a", "b"]) x = some c ∧
        dlookup (build_id2name 0 ["a", "b"]) (Nat.repr c) = some x) ∧
    (∀ x y cx cy, dlookup (build_name2id 0 ["a", "b"]) x = some cx →
        dlookup (build_name2id 0 ["a", "b"]) y = some cy → x ≠ y → cx ≠ cy) ∧
    (∀ t, transform_transaction ["a", "b"] (pyLLS [["a", "b"], ["b"]]) = .ok t →
        ∀ row ∈ t, ∀ c ∈ row, ∃ lb,
          dlookup (build_id2name 0 ["a", "b"]) (Nat.repr c) = some lb)) :=
  ⟨⟨by decide, by decide, by decide⟩,
    C2_bijection [["a", "b"], ["b"]] ["a", "b"] ⟨by decide, by decide, by decide⟩⟩

/-- C7 (counterexample): on the empty corpus the claimed "build succeeds
with empty maps" is false: `transform_transaction` raises `RuntimeError`,
because the empty list classifies as `"list[str]"`, not `"list[list[str]]"`
(the `LCM` constructor calls `transform_transaction`, so construction itself
fails). -/
theorem C7_empty_build_counterexample :
    transform_transaction [] (pyLLS []) = .error "RuntimeError" := rfl

/-- C7 (amended): for the empty transaction corpus, building the codec
*fails* with `RuntimeError` (the empty list classifies as `"list[str]"`);
and with the empty forward/reverse maps an empty vocabulary would produce,
every encode of a label and every decode of a code fails with a `KeyError`
lookup miss. -/
theorem C7_empty_corpus (s c : String) :
    transform_transaction [] (pyLLS []) = .error "RuntimeError" ∧
    transform_items (build_name2id 0 []) (.vstr s) = .error "KeyError" ∧
    inverse_transform_items (build_id2name 0 []) (.vstr c) = .error "KeyError" := by
  refine ⟨rfl, ?_, ?_⟩
  · rw [transform_items_vstr]
    rfl
  · rw [inverse_transform_items_vstr]
    rfl

theorem write_transaction_lines_some (t : List (List Nat)) (c : Nat) :
    write_transaction_lines t (some c) =
      (t.filter (fun x => decide (c ∈ x))).map (fun x => transactionLine x ++ "\n") := by
  induction t with
  | nil => rfl
  | cons x rest ih =>
    by_cases hx : c ∈ x
    · simp [write_transaction_lines, hx, ih]
    · simp [write_transaction_lines, hx, ih]

theorem write_transaction_lines_none (t : List (List Nat)) :
    write_transaction_lines t none = t.map (fun x => transactionLine x ++ "\n") := by
  induction t with
  | nil => rfl
  | cons x rest ih => simp [write_transaction_lines, ih]

/-- C3: `write_transaction` with a target code `c` writes exactly the
transactions whose code list contains `c`, in the original order, one line
per transaction as space-separated decimal codes followed by a newline; with
no target it writes every transaction in order; and the resulting file
content is independent of whatever the file held before (the `"w"` mode
truncates). -/
theorem C3_write_filtering (prev prev2 : String) (t : List (List Nat)) (c : Nat)
    (tid : Option Nat) :
    write_transaction prev t (some c) =
      concatLines ((t.filter (fun x => decide (c ∈ x))).map
        (fun x => transactionLine x ++ "\n")) ∧
    write_transaction prev t none =
      concatLines (t.map (fun x => transactionLine x ++ "\n")) ∧
    write_transaction prev t tid = write_transaction prev2 t tid := by
  refine ⟨?_, ?_, rfl⟩
  · rw [show write_transaction prev t (some c) =
      concatLines (write_transaction_lines t (some c)) from rfl,
      write_transaction_lines_some]
  · rw [show write_transaction prev t none =
      concatLines (write_transaction_lines t none) from rfl,
      write_transaction_lines_none]

/-- C4: the mode flag is a pure function of (rule-item present?, target
present?, mining mode): `<M>fRs` with a rule item and no target, `<M>fs` with
a target and no rule item, `<M>Rfs` with neither; and supplying both raises
`RuntimeError` (in `run` this check, line 308, precedes every
`write_transaction` call and the `subprocess` invocation, which the
`Except.error` result therefore never reaches). -/
theorem C4_mode_flags (prog tf outf : String) (itemlist : List String)
    (tt : List (List Nat)) (ms : Nat) (mode M : String) (rfi tgt : String)
    (o : RunOpts) (r1 r2 r3 : RunResult)
    (hM : dlookup itemset_mining_dic mode = some M) :
    (run prog tf outf itemlist tt ms mode (some rfi) none o = .ok r1 →
      r1.opt = M ++ "fRs") ∧
    (run prog tf outf itemlist tt ms mode none (some tgt) o = .ok r2 →
      r2.opt = M ++ "fs") ∧
    (run prog tf outf itemlist tt ms mode none none o = .ok r3 →
      r3.opt = M ++ "Rfs") ∧
    run prog tf outf itemlist tt ms mode (some rfi) (some tgt) o =
      .error "RuntimeError" := by
  refine ⟨?_, ?_, ?_, rfl⟩
  · intro h
    simp only [run, hM, Option.isSome_some, Option.isSome_none, Bool.and_false,
      Bool.false_eq_true, if_false] at h
    split at h
    · split at h
      · exact Except.noConfusion h
      · injection h with h2
        rw [← h2]
    · injection h with h2
      rw [← h2]
  · intro h
    simp only [run, hM, Option.isSome_some, Option.isSome_none, Bool.false_and,
      Bool.false_eq_true, if_false] at h
    split at h
    · exact Except.noConfusion h
    · injection h with h2
      rw [← h2]
  · intro h
    simp only [run, hM, Option.isSome_some, Option.isSome_none, Bool.false_and,
      Bool.false_eq_true, if_false] at h
    injection h with h2
    rw [← h2]

/-- Witness for `C4_mode_flags`: concrete runs in all four request shapes with
`itemset_mining = "closed_frequent"` (mode letter `C`). -/
theorem C4_mode_flags_witness :
    dlookup itemset_mining_dic "closed_frequent" = some "C" ∧
    ((run "p" "t" "o" ["a", "b"] [[0, 1], [1]] 1 "closed_frequent" (some "a")
        none ⟨none, none, none, none⟩ = .ok
        { rule_for_item := some "a", target := none, opt := "CfRs",
          optadd := ["-a 0.5", "-l 1", "-i 0"], fileContent := "0 1\n1\n",
          cmd_list := ["p", "CfRs", "-a", "0.5", "-l", "1", "-i", "0", "t",
            "1", "o"] } →
      RunResult.opt
        { rule_for_item := some "a", target := none, opt := "CfRs",
          optadd := ["-a 0.5", "-l 1", "-i 0"], fileContent := "0 1\n1\n",
          cmd_list := ["p", "CfRs", "-a", "0.5", "-l", "1", "-i", "0", "t",
            "1", "o"] } = "C" ++ "fRs") ∧
    (run "p" "t" "o" ["a", "b"] [[0, 1], [1]] 1 "closed_frequent" none
        (some "b") ⟨none, none, none, none⟩ = .ok
        { rule_for_item := none, target := some "b", opt := "Cfs",
          optadd := ["-l 1"], fileContent := "0 1\n1\n",
          cmd_list := ["p", "Cfs", "-l", "1", "t", "1", "o"] } →
      RunResult.opt
        { rule_for_item := none, target := some "b", opt := "Cfs",
          optadd := ["-l 1"], fileContent := "0 1\n1\n",
          cmd_list := ["p", "Cfs", "-l", "1", "t", "1", "o"] } = "C" ++ "fs") ∧
    (run "p" "t" "o" ["a", "b"] [[0, 1], [1]] 1 "closed_frequent" none none
        ⟨none, none, none, none⟩ = .ok
        { rule_for_item := none, target := none, opt := "CRfs",
          optadd := ["-l 1"], fileContent := "0 1\n1\n",
          cmd_list := ["p", "CRfs", "-l", "1", "t", "1", "o"] } →
      RunResult.opt
        { rule_for_item := none, target := none, opt := "CRfs",
          optadd := ["-l 1"], fileContent := "0 1\n1\n",
          cmd_list := ["p", "CRfs", "-l", "1", "t", "1", "o"] } = "C" ++ "Rfs") ∧
    run "p" "t" "o" ["a", "b"] [[0, 1], [1]] 1 "closed_frequent" (some "a")
        (some "b") ⟨none, none, none, none⟩ = .error "RuntimeError") :=
  ⟨rfl, C4_mode_flags "p" "t" "o" ["a", "b"] [[0, 1], [1]] 1 "closed_frequent"
    "C" "a" "b" ⟨none, none, none, none⟩
    { rule_for_item := some "a", target := none, opt := "CfRs",
      optadd := ["-a 0.5", "-l 1", "-i 0"], fileContent := "0 1\n1\n",
      cmd_list := ["p", "CfRs", "-a", "0.5", "-l", "1", "-i", "0", "t", "1",
        "o"] }
    { rule_for_item := none, target := some "b", opt := "Cfs",
      optadd := ["-l 1"], fileContent := "0 1\n1\n",
      cmd_list := ["p", "Cfs", "-l", "1", "t", "1", "o"] }
    { rule_for_item := none, target := none, opt := "CRfs",
      optadd := ["-l 1"], fileContent := "0 1\n1\n",
      cmd_list := ["p", "CRfs", "-l", "1", "t", "1", "o"] } rfl⟩

/-- C9: in rule-mining mode the merged options start from the defaults
`{min_confidence: "0.5", min_itemset_size: "1"}` with explicit options
overriding them (the `Option.getD` defaults below); `optadd` carries
`-a <min_confidence>` unless `max_confidence` is supplied, in which case
`-A <max_confidence>` *replaces* it (the first alternative of the `match` —
last assignment wins, not additive); and the final argument vector is
`[program, mode_flag, option_flags..., transaction_file, min_support,
output_file]` in that order, the option flag strings being joined with
spaces and re-split. -/
theorem C9_rule_options (prog tf outf : String) (itemlist : List String)
    (tt : List (List Nat)) (ms : Nat) (mode M rfi : String) (code : Nat)
    (o : RunOpts) (hM : dlookup itemset_mining_dic mode = some M)
    (hrfi : 0 < rfi.length)
    (hcode : dlookup (build_name2id 0 itemlist) rfi = some code) :
    ∃ r : RunResult,
      run prog tf outf itemlist tt ms mode (some rfi) none o = .ok r ∧
      r.optadd =
        ((match o.max_confidence with
          | some v => ["-A " ++ v]
          | none => ["-a " ++ o.min_confidence.getD "0.5"]) ++
         ["-l " ++ o.min_itemset_size.getD "1"] ++
         (match o.max_itemset_size with
          | some v => ["-u " ++ v]
          | none => []) ++
         ["-i " ++ Nat.repr code]) ∧
      r.cmd_list = [prog, M ++ "fRs"] ++ pySplit (joinSpace r.optadd) ++
        [tf, Nat.repr ms, outf] := by
  have hrun : run prog tf outf itemlist tt ms mode (some rfi) none o = .ok
      { rule_for_item := some rfi, target := none, opt := M ++ "fRs",
        optadd :=
          ((match o.max_confidence with
            | some v => ["-A " ++ v]
            | none => ["-a " ++ o.min_confidence.getD "0.5"]) ++
           ["-l " ++ o.min_itemset_size.getD "1"] ++
           (match o.max_itemset_size with
            | some v => ["-u " ++ v]
            | none => []) ++
           ["-i " ++ Nat.repr code]),
        fileContent := write_transaction "" tt none,
        cmd_list := buildCmdList prog (M ++ "fRs")
          ((match o.max_confidence with
            | some v => ["-A " ++ v]
            | none => ["-a " ++ o.min_confidence.getD "0.5"]) ++
           ["-l " ++ o.min_itemset_size.getD "1"] ++
           (match o.max_itemset_size with
            | some v => ["-u " ++ v]
            | none => []) ++
           ["-i " ++ Nat.repr code]) tf ms outf } := by
    simp only [run, hM, hcode, mergeOpts, Option.isSome_some, Option.isSome_none,
      Bool.and_false, Bool.false_eq_true, if_false, if_pos hrfi]
  exact ⟨_, hrun, rfl, rfl⟩

/-- Witness for `C9_rule_options`: mode `"frequent"`, rule item `"b"` (code
`1`), explicit `max_confidence = "0.9"` (which replaces `-a`) and
`max_itemset_size = "4"`; the resulting vector is
`["p", "FfRs", "-A", "0.9", "-l", "1", "-u", "4", "-i", "1", "t", "2", "o"]`. -/
theorem C9_rule_options_witness :
    dlookup itemset_mining_dic "frequent" = some "F" ∧
    0 < String.length "b" ∧
    dlookup (build_name2id 0 ["a", "b"]) "b" = some 1 ∧
    (∃ r : RunResult,
      run "p" "t" "o" ["a", "b"] [[0, 1], [1]] 2 "frequent" (some "b") none
        ⟨none, some "0.9", none, some "4"⟩ = .ok r ∧
      r.optadd =
        ((match (⟨none, some "0.9", none, some "4"⟩ : RunOpts).max_confidence with
          | some v => ["-A " ++ v]
          | none => ["-a " ++ (⟨none, some "0.9", none, some "4"⟩ :
              RunOpts).min_confidence.getD "0.5"]) ++
         ["-l " ++ (⟨none, some "0.9", none, some "4"⟩ :
            RunOpts).min_itemset_size.getD "1"] ++
         (match (⟨none, some "0.9", none, some "4"⟩ : RunOpts).max_itemset_size with
          | some v => ["-u " ++ v]
          | none => []) ++
         ["-i " ++ Nat.repr 1]) ∧
      r.cmd_list = ["p", "F" ++ "fRs"] ++ pySplit (joinSpace r.optadd) ++
        ["t", Nat.repr 2, "o"]) :=
  ⟨rfl, by decide, rfl,
    C9_rule_options "p" "t" "o" ["a", "b"] [[0, 1], [1]] 2 "frequent" "F" "b" 1
      ⟨none, some "0.9", none, some "4"⟩ rfl (by decide) rfl⟩

theorem run_ok_attrs {prog tf outf : String} {itemlist : List String}
    {tt : List (List Nat)} {ms : Nat} {mode : String} {rfi tgt : Option String}
    {o : RunOpts} {r : RunResult}
    (h : run prog tf outf itemlist tt ms mode rfi tgt o = .ok r) :
    r.rule_for_item = rfi := by
  cases rfi with
  | none =>
    cases tgt with
    | none =>
      simp only [run, Option.isSome_none, Bool.false_and, Bool.false_eq_true,
        if_false] at h
      split at h
      · exact Except.noConfusion h
      · injection h with h2
        rw [← h2]
    | some t =>
      simp only [run, Option.isSome_none, Option.isSome_some, Bool.false_and,
        Bool.false_eq_true, if_false] at h
      split at h
      · exact Except.noConfusion h
      · split at h
        · exact Except.noConfusion h
        · injection h with h2
          rw [← h2]
  | some s =>
    cases tgt with
    | none =>
      simp only [run, Option.isSome_some, Option.isSome_none, Bool.and_false,
        Bool.false_eq_true, if_false] at h
      split at h
      · exact Except.noConfusion h
      · split at h
        · split at h
          · exact Except.noConfusion h
          · injection h with h2
            rw [← h2]
        · injection h with h2
          rw [← h2]
    | some t =>
      simp only [run, Option.isSome_some, Bool.and_self, if_true] at h
      exact Except.noConfusion h

/-- C10: on a freshly constructed `LCM` instance the dispatch attribute
`self.rule_for_item` has never been assigned (it is set only at the top of
`run`, line 298), so `read` raises `AttributeError`; after a successful
`run`, `read` performs the rule parse exactly when the `rule_for_item`
argument of that run was not `None`, and the frequency parse otherwise. -/
theorem C10_read_dispatch (prog tf outf : String) (itemlist : List String)
    (tt : List (List Nat)) (ms : Nat) (mode : String) (rfi tgt : Option String)
    (o : RunOpts) (d : List (String × String)) (lines : List String)
    (r : RunResult) :
    read none d lines = .error "AttributeError" ∧
    (run prog tf outf itemlist tt ms mode rfi tgt o = .ok r →
      r.rule_for_item = rfi ∧
      read (some r.rule_for_item) d lines =
        (match rfi with
         | some _ =>
           match read_rule d lines with
           | .ok out => .ok (.rule out)
           | .error e => .error e
         | none =>
           match read_freq d lines with
           | .ok out => .ok (.freq out)
           | .error e => .error e)) := by
  refine ⟨rfl, fun h => ?_⟩
  have hattr := run_ok_attrs h
  refine ⟨hattr, ?_⟩
  rw [hattr]
  cases rfi with
  | none => rfl
  | some s => rfl

/-- Witness for `C10_read_dispatch`: the `read` of a fresh instance raises
`AttributeError`, and after a concrete frequency-mode `run` (no rule item)
`read` dispatches to the frequency parser. -/
theorem C10_read_dispatch_witness :
    read none [("0", "a")] ([] : List String) = .error "AttributeError" ∧
    (RunResult.rule_for_item
        { rule_for_item := none, target := none, opt := "CRfs",
          optadd := ["-l 1"], fileContent := "0 1\n1\n",
          cmd_list := ["p", "CRfs", "-l", "1", "t", "1", "o"] } = none ∧
      read (some (RunResult.rule_for_item
        { rule_for_item := none, target := none, opt := "CRfs",
          optadd := ["-l 1"], fileContent := "0 1\n1\n",
          cmd_list := ["p", "CRfs", "-l", "1", "t", "1", "o"] }))
        [("0", "a")] ([] : List String) =
        .ok (.freq { frequency := [], items := [] })) :=
  ⟨(C10_read_dispatch "p" "t" "o" ["a", "b"] [[0, 1], [1]] 1 "closed_frequent"
      none none ⟨none, none, none, none⟩ [("0", "a")] []
      { rule_for_item := none, target := none, opt := "CRfs",
        optadd := ["-l 1"], fileContent := "0 1\n1\n",
        cmd_list := ["p", "CRfs", "-l", "1", "t", "1", "o"] }).1,
    (C10_read_dispatch "p" "t" "o" ["a", "b"] [[0, 1], [1]] 1 "closed_frequent"
      none none ⟨none, none, none, none⟩ [("0", "a")] []
      { rule_for_item := none, target := none, opt := "CRfs",
        optadd := ["-l 1"], fileContent := "0 1\n1\n",
        cmd_list := ["p", "CRfs", "-l", "1", "t", "1", "o"] }).2 rfl⟩

/-- C5: on any frequency output line, all whitespace tokens except the
last are decoded as item codes in order via the reverse map, and the last
token has its parentheses stripped and is parsed as the integer support; in
particular (see the witness) the line `"1 3 (7)"` under the reverse map
`{"1" ↦ "a", "3" ↦ "c"}` yields items `["a", "c"]` and support `7`. -/
theorem C5_freq_parse (d : List (String × String)) (line : String)
    (toks : List String) (tlast : String) (labels : List String) (n : Int)
    (h1 : pySplit line = toks ++ [tlast])
    (h2 : inverse_transform_items d (pyLS toks) = .ok (pyLS labels))
    (h3 : pyInt (pyStripParens tlast) = some n) :
    read_freq d [line] = .ok { frequency := [n], items := [pyLS labels] } := by
  have hps : parse_freq_line d line = .ok (pyLS labels, n) := by
    simp only [parse_freq_line, h1, List.dropLast_concat, List.getLast?_concat,
      h2, h3]
  simp only [read_freq, mapE, hps, List.map_cons, List.map_nil]

/-- Witness for `C5_freq_parse` on the concrete example of the spec. -/
theorem C5_freq_parse_witness :
    pySplit "1 3 (7)" = ["1", "3"] ++ ["(7)"] ∧
    inverse_transform_items [("1", "a"), ("3", "c")] (pyLS ["1", "3"]) =
      .ok (pyLS ["a", "c"]) ∧
    pyInt (pyStripParens "(7)") = some 7 ∧
    read_freq [("1", "a"), ("3", "c")] ["1 3 (7)"] =
      .ok { frequency := [7], items := [pyLS ["a", "c"]] } :=
  ⟨rfl, rfl, rfl,
    C5_freq_parse [("1", "a"), ("3", "c")] "1 3 (7)" ["1", "3"] "(7)"
      ["a", "c"] 7 rfl rfl rfl⟩

/-- C6: every rule output line is split on the literal `<=`; on the left
half the first whitespace token is parenthesis-stripped and comma-split (the
first component is the confidence kept by `read_rule`) and the second token is
the target code; on the right half all tokens but the last are the source
codes and the last token is the parenthesis-stripped support.  Concretely,
`"(0.8,0.9) 5 <= 1 3 (4)"` under the reverse map
`{"5" ↦ "z", "1" ↦ "a", "3" ↦ "c"}` yields source `["a", "c"]`, support
`"4"`, target `"z"` and confidence `"0.8"`. -/
theorem C6_rule_parse (line tgtHalf srcHalf : String) (restHalves : List String)
    (conf0 tcode : String) (restL srcToks : List String) (lastTok : String)
    (confFirst : String) (confRest : List String)
    (h1 : pySplitLE line = tgtHalf :: srcHalf :: restHalves)
    (h2 : pySplit tgtHalf = conf0 :: tcode :: restL)
    (h3 : pySplit srcHalf = srcToks ++ [lastTok])
    (h4 : pySplitComma (pyStripParens conf0) = confFirst :: confRest) :
    parse_rule_line line =
      .ok { item_source := srcToks, support := pyStripParens lastTok,
            item_target := tcode, confidence := confFirst :: confRest } ∧
    read_rule [("5", "z"), ("1", "a"), ("3", "c")] ["(0.8,0.9) 5 <= 1 3 (4)"] =
      .ok { frequency := ["4"], confidence := ["0.8"],
            source_items := pyLLS [["a", "c"]], target_item := pyLS ["z"] } := by
  constructor
  · simp only [parse_rule_line, h1, h2, h3, List.dropLast_concat,
      List.getLast?_concat, h4]
  · rfl

/-- Witness for `C6_rule_parse` on the concrete example of the spec. -/
theorem C6_rule_parse_witness :
    pySplitLE "(0.8,0.9) 5 <= 1 3 (4)" = ["(0.8,0.9) 5 ", " 1 3 (4)"] ∧
    pySplit "(0.8,0.9) 5 " = ["(0.8,0.9)", "5"] ∧
    pySplit " 1 3 (4)" = ["1", "3"] ++ ["(4)"] ∧
    pySplitComma (pyStripParens "(0.8,0.9)") = ["0.8", "0.9"] ∧
    (parse_rule_line "(0.8,0.9) 5 <= 1 3 (4)" =
      .ok { item_source := ["1", "3"], support := pyStripParens "(4)",
            item_target := "5", confidence := ["0.8", "0.9"] } ∧
    read_rule [("5", "z"), ("1", "a"), ("3", "c")] ["(0.8,0.9) 5 <= 1 3 (4)"] =
      .ok { frequency := ["4"], confidence := ["0.8"],
            source_items := pyLLS [["a", "c"]], target_item := pyLS ["z"] }) :=
  ⟨rfl, rfl, rfl, rfl,
    C6_rule_parse "(0.8,0.9) 5 <= 1 3 (4)" "(0.8,0.9) 5 " " 1 3 (4)" []
      "(0.8,0.9)" "5" [] ["1", "3"] "(4)" "0.8" ["0.9"] rfl rfl rfl rfl⟩

/-- C8: if any output line lacks the substring `<=` (its `<=`-split has a
single piece, so `s[1]` raises `IndexError`), the whole `read_rule` call
fails: no partial rule result is returned for the file. -/
theorem C8_missing_sep (d : List (String × String)) (lines : List String)
    (x : String) (hx : x ∈ lines) (hbad : (pySplitLE x).length = 1) :
    ∃ e, read_rule d lines = .error e := by
  have hparse : parse_rule_line x = .error "IndexError" := by
    cases hsp : pySplitLE x with
    | nil =>
      rw [hsp] at hbad
      simp at hbad
    | cons a rest =>
      cases rest with
      | nil => simp only [parse_rule_line, hsp]
      | cons b rest2 =>
        rw [hsp] at hbad
        simp at hbad
  obtain ⟨e2, he2⟩ := mapE_error_of_mem hx hparse
  exact ⟨e2, by simp only [read_rule, he2]⟩

/-- Witness for `C8_missing_sep`: the single malformed line `"abc"`. -/
theorem C8_missing_sep_witness :
    "abc" ∈ ["abc"] ∧ (pySplitLE "abc").length = 1 ∧
    ∃ e, read_rule ([] : List (String × String)) ["abc"] = .error e :=
  ⟨by decide, by decide,
    C8_missing_sep [] ["abc"] "abc" (by decide) (by decide)⟩
